import Mathlib

/-!
Verification of the serial-frame firmware of ROVRunners/bottomside_rp_python.

The repository holds two near-identical Arduino sketches:
* `src/Arduino/Arduino.ino` — reads bytes from the serial port into a plain
  `char buffer[64]`, decodes every 4 bytes into an `int` (`parse_int`), stores
  it in `int values[6]`, and prints each completed 6-value frame
  (`print_values`).  It drives no actuators.
* `src/unnamed/part_000` — same structure with an `unsigned char buffer[64]`,
  array `int data_recv[6]`, counters `bytes_consumed` / `data_recv_consumed`,
  plus six servos: on frame completion it calls `print_data_recv()` and
  `set_motors()` (`servo[i].writeMicroseconds(...)`).

Machine integers: the decode arithmetic is modelled as C `int` = 32-bit
two's complement (`toInt32`), matching the 8/16/24-bit shifts the code
performs; bytes are `Nat` values, reduced mod 256 on store, mirroring the
conversion from `int` to the 8-bit buffer element type.

A transcription note used throughout: lines 74/79/85 of `part_000` write
`data_recv_consumed[...]` — the `int` frame counter indexed as if it were the
`data_recv` array.  That expression is ill-typed C (subscript of a non-array);
§9 of the design notes records it as the "index-into-the-wrong-array defect
observed in one of the two source variants", with `data_recv` the intended
array.  Definitions below that touch those three sites model the intended
store/read into `data_recv` and say so in their doc comments; the claims whose
substance is exactly that data flow are settled as code bugs.
-/

set_option maxRecDepth 4000

namespace Bottomside

/-- Wrap an unbounded integer to a signed 32-bit two's-complement value,
modelling arithmetic on C `int`. -/
def toInt32 (n : Int) : Int := (n + 2 ^ 31) % 2 ^ 32 - 2 ^ 31

/-- Read-back of a stored byte through AVR's signed plain `char` (avr-gcc
default for the ATmega boards whose PWM pins 3,5,6,9,10,11 the sketches use):
values 128..255 re-read as negative. -/
def sChar (b : Nat) : Int := if b % 256 < 128 then (b % 256 : Int) else (b % 256 : Int) - 256

/-- `parse_int` of `src/unnamed/part_000` (lines 58-75) as a function of the
four buffered bytes: `int ans = buffer[0]`, then for each further byte
`ans += c << offset` with offset 8, 16, 24, every operation on 32-bit `int`.
The buffer is `unsigned char`, so each byte enters as its value 0..255. -/
def decodeP (b0 b1 b2 b3 : Nat) : Int :=
  toInt32 (toInt32 (toInt32 ((b0 : Int) + toInt32 ((b1 : Int) * 256))
    + toInt32 ((b2 : Int) * 65536)) + toInt32 ((b3 : Int) * 16777216))

/-- `parse_int` of `src/Arduino/Arduino.ino` (lines 47-64) as a function of the
four buffered bytes, with the plain-`char` buffer read back signed (`sChar`):
`int ans = buffer[0]`, then `int c = buffer[i] << offset; ans += c`. -/
def decodeIno (b0 b1 b2 b3 : Nat) : Int :=
  toInt32 (toInt32 (toInt32 (sChar b0 + toInt32 (sChar b1 * 256))
    + toInt32 (sChar b2 * 65536)) + toInt32 (sChar b3 * 16777216))

/-- `parse_int` of `src/Arduino/Arduino.ino` under the alternative
unsigned-plain-`char` reading (the ARM default): each byte enters as 0..255. -/
def decodeInoU (b0 b1 b2 b3 : Nat) : Int :=
  toInt32 (toInt32 (toInt32 ((b0 : Int) + toInt32 ((b1 : Int) * 256))
    + toInt32 ((b2 : Int) * 65536)) + toInt32 ((b3 : Int) * 16777216))

/-- The decoder contract in the spec's words (§4.2/§8):
`b0 + (b1<<8) + (b2<<16) + (b3<<24)` interpreted as a signed 32-bit
two's-complement value, each byte unsigned. -/
def specDecode (b0 b1 b2 b3 : Nat) : Int :=
  if (b0 + b1 * 2 ^ 8 + b2 * 2 ^ 16 + b3 * 2 ^ 24) % 2 ^ 32 < 2 ^ 31 then
    (((b0 + b1 * 2 ^ 8 + b2 * 2 ^ 16 + b3 * 2 ^ 24) % 2 ^ 32 : Nat) : Int)
  else
    (((b0 + b1 * 2 ^ 8 + b2 * 2 ^ 16 + b3 * 2 ^ 24) % 2 ^ 32 : Nat) : Int) - 2 ^ 32

lemma toInt32_eq_self {n : Int} (h1 : -(2 ^ 31) ≤ n) (h2 : n < 2 ^ 31) : toInt32 n = n := by
  unfold toInt32; omega

lemma toInt32_add_right (a b : Int) : toInt32 (a + toInt32 b) = toInt32 (a + b) := by
  unfold toInt32; omega

lemma decodeP_eq_specDecode (b0 b1 b2 b3 : Nat)
    (h0 : b0 < 256) (h1 : b1 < 256) (h2 : b2 < 256) (h3 : b3 < 256) :
    decodeP b0 b1 b2 b3 = specDecode b0 b1 b2 b3 := by
  unfold decodeP
  rw [toInt32_add_right]
  rw [toInt32_eq_self (n := (b1 : Int) * 256) (by omega) (by omega)]
  rw [toInt32_eq_self (n := (b2 : Int) * 65536) (by omega) (by omega)]
  rw [toInt32_eq_self (n := (b0 : Int) + (b1 : Int) * 256) (by omega) (by omega)]
  rw [toInt32_eq_self (n := (b0 : Int) + (b1 : Int) * 256 + (b2 : Int) * 65536)
    (by omega) (by omega)]
  unfold specDecode toInt32
  split <;> push_cast <;> omega

lemma decodeIno_eq_decodeP_of_lt (b0 b1 b2 b3 : Nat)
    (h0 : b0 < 128) (h1 : b1 < 128) (h2 : b2 < 128) (h3 : b3 < 128) :
    decodeIno b0 b1 b2 b3 = decodeP b0 b1 b2 b3 := by
  unfold decodeIno decodeP
  rw [show sChar b0 = (b0 : Int) by unfold sChar; split <;> omega]
  rw [show sChar b1 = (b1 : Int) by unfold sChar; split <;> omega]
  rw [show sChar b2 = (b2 : Int) by unfold sChar; split <;> omega]
  rw [show sChar b3 = (b3 : Int) by unfold sChar; split <;> omega]

/-! ## The byte-handling state machine

Both sketches share one shape of mutable state; `MState` uses the `part_000`
field names (`Arduino.ino` calls the same four variables `buffer`,
`read_bytes`, `values`, `read_values`).  The C arrays `buffer[64]` and the
6-slot frame array are modelled as total maps with explicit bounds checks at
each write, so an out-of-bounds array write (undefined behaviour in C) is
`none`. -/

/-- The four global variables shared by both sketches. -/
structure MState where
  buffer : Nat → Nat
  bytesConsumed : Nat
  dataRecv : Nat → Int
  dataRecvConsumed : Nat

/-- C globals are zero-initialised. -/
def initState : MState := ⟨fun _ => 0, 0, fun _ => 0, 0⟩

/-- Observable events of one step: a byte accepted from serial, one telemetry
line of a completed frame, one `servo[i].writeMicroseconds(v)` call. -/
inductive Ev where
  | recv (b : Nat)
  | print (f : List Int)
  | servo (i : Nat) (v : Int)
deriving DecidableEq

/-- The stateful part of `parse_int`, generic in the pure 4-byte decode `d`:
store the decoded value at the current frame cursor and increment the cursor.
In `part_000` the store (line 74) is written `data_recv_consumed[...]`, the
counter subscripted as if it were the array — ill-typed C that the design
notes' §9 record as the wrong-array defect; the intended (and in
`Arduino.ino`, line 63, actual) target `data_recv`/`values` is modelled.
A write past the 6-slot array is out of bounds, hence `none`. -/
def parseIntStep (d : Nat → Nat → Nat → Nat → Int) (s : MState) : Option MState :=
  if s.dataRecvConsumed < 6 then
    some { s with
      dataRecv := Function.update s.dataRecv s.dataRecvConsumed
        (d (s.buffer 0) (s.buffer 1) (s.buffer 2) (s.buffer 3)),
      dataRecvConsumed := s.dataRecvConsumed + 1 }
  else none

/-- Lines 38-41 of `part_000` (28-31 of `Arduino.ino`):
`buffer[bytes_consumed++] = c`, the `int` byte reduced to the 8-bit element
type; a write at or past index 64 is out of bounds, hence `none`. -/
def storeByte (s : MState) (c : Nat) : Option MState :=
  if s.bytesConsumed < 64 then
    some { s with
      buffer := Function.update s.buffer s.bytesConsumed (c % 256),
      bytesConsumed := s.bytesConsumed + 1 }
  else none

/-- Lines 44-47 of `part_000` (34-37 of `Arduino.ino`): every time 4 bytes are
read, parse an integer and reset the byte cursor. -/
def maybeParse (d : Nat → Nat → Nat → Nat → Int) (s : MState) : Option MState :=
  if 4 ≤ s.bytesConsumed then
    (parseIntStep d s).map (fun t => { t with bytesConsumed := 0 })
  else some s

/-- The six frame slots in index order, as printed by `print_values`
(`Arduino.ino`) and intended by `print_data_recv` (`part_000`, whose line 85
subscripts the counter instead of `data_recv` — the §9 defect). -/
def frameList (s : MState) : List Int :=
  [s.dataRecv 0, s.dataRecv 1, s.dataRecv 2, s.dataRecv 3, s.dataRecv 4, s.dataRecv 5]

/-- `set_motors` of `part_000` (lines 77-81): one `writeMicroseconds` per
channel in index order.  Line 79 subscripts the counter `data_recv_consumed`
instead of `data_recv` (the §9 defect); the intended array is modelled. -/
def servoEvs (s : MState) : List Ev :=
  [Ev.servo 0 (s.dataRecv 0), Ev.servo 1 (s.dataRecv 1), Ev.servo 2 (s.dataRecv 2),
   Ev.servo 3 (s.dataRecv 3), Ev.servo 4 (s.dataRecv 4), Ev.servo 5 (s.dataRecv 5)]

/-- What a completed frame emits: the telemetry line, then (in `part_000`,
flag `es = true`) the six servo calls. -/
def dispatchEvs (es : Bool) (s : MState) : List Ev :=
  Ev.print (frameList s) :: (if es then servoEvs s else [])

/-- `handleSerial` for one byte `c`: store it; on the 4th byte parse and reset
the byte cursor; if all 6 values have been read, dispatch and reset the frame
cursor (`part_000` lines 36-55, `Arduino.ino` lines 26-44). -/
def stepM (d : Nat → Nat → Nat → Nat → Int) (es : Bool) (s : MState) (c : Nat) :
    Option (MState × List Ev) :=
  (storeByte s c).bind fun s1 =>
    (maybeParse d s1).map fun s2 =>
      if 6 ≤ s2.dataRecvConsumed then
        ({ s2 with dataRecvConsumed := 0 }, Ev.recv c :: dispatchEvs es s2)
      else (s2, [Ev.recv c])

/-- The polling loop: feed the available bytes one at a time through
`handleSerial`, concatenating the emitted events in order. -/
def runM (d : Nat → Nat → Nat → Nat → Int) (es : Bool) :
    MState → List Nat → Option (MState × List Ev)
  | s, [] => some (s, [])
  | s, b :: bs =>
    (stepM d es s b).bind fun p =>
      (runM d es p.1 bs).map fun q => (q.1, p.2 ++ q.2)

/-- The state after feeding `bs` from the initial state (initial state as
default; the runs used in the theorems are proved to succeed). -/
def runStateD (d : Nat → Nat → Nat → Nat → Int) (es : Bool) (bs : List Nat) : MState :=
  ((runM d es initState bs).map Prod.fst).getD initState

/-- The telemetry frames among a list of events, in order. -/
def onlyPrints (evs : List Ev) : List (List Int) :=
  evs.filterMap fun e => match e with | .print f => some f | _ => none

/-- The servo calls among a list of events, in order, as index/value pairs. -/
def servoCalls (evs : List Ev) : List (Nat × Int) :=
  evs.filterMap fun e => match e with | .servo i v => some (i, v) | _ => none

/-! ## Reference formulation: bytes grouped in 24-byte chunks -/

/-- Byte `i` of the byte list as it sits in the 8-bit buffer. -/
def byteAt (p : List Nat) (i : Nat) : Nat := p.getD i 0 % 256

/-- The decode of the `k`-th 4-byte group of `p`. -/
def decAt (d : Nat → Nat → Nat → Nat → Int) (p : List Nat) (k : Nat) : Int :=
  d (byteAt p (4 * k)) (byteAt p (4 * k + 1)) (byteAt p (4 * k + 2)) (byteAt p (4 * k + 3))

/-- The frame decoded from one 24-byte chunk: the six group decodes in order. -/
def frameOfChunk (d : Nat → Nat → Nat → Nat → Int) (p : List Nat) : List Int :=
  [decAt d p 0, decAt d p 1, decAt d p 2, decAt d p 3, decAt d p 4, decAt d p 5]

/-- The events a completed 24-byte chunk dispatches. -/
def chunkEvs (d : Nat → Nat → Nat → Nat → Int) (es : Bool) (p : List Nat) : List Ev :=
  Ev.print (frameOfChunk d p) ::
    (if es then
      [Ev.servo 0 (decAt d p 0), Ev.servo 1 (decAt d p 1), Ev.servo 2 (decAt d p 2),
       Ev.servo 3 (decAt d p 3), Ev.servo 4 (decAt d p 4), Ev.servo 5 (decAt d p 5)]
     else [])

/-- Reference step on the pending chunk `p`: append the byte; at 24 bytes,
dispatch the chunk and start over. -/
def refStep (d : Nat → Nat → Nat → Nat → Int) (es : Bool) (p : List Nat) (b : Nat) :
    List Nat × List Ev :=
  if p.length + 1 = 24 then ([], Ev.recv b :: chunkEvs d es (p ++ [b]))
  else (p ++ [b], [Ev.recv b])

/-- Reference run over a byte list. -/
def refRun (d : Nat → Nat → Nat → Nat → Int) (es : Bool) :
    List Nat → List Nat → List Nat × List Ev
  | p, [] => (p, [])
  | p, b :: bs =>
    ((refRun d es (refStep d es p b).1 bs).1,
     (refStep d es p b).2 ++ (refRun d es (refStep d es p b).1 bs).2)

/-- The canonical event trace: per 24-byte chunk, the 24 accepted bytes, then
the telemetry line and all six servo calls of exactly that chunk, before any
byte of the next chunk. -/
def chunksTrace (d : Nat → Nat → Nat → Nat → Int) (es : Bool) (bs : List Nat) : List Ev :=
  if h : 24 ≤ bs.length then
    (bs.take 24).map Ev.recv ++ chunkEvs d es (bs.take 24) ++ chunksTrace d es (bs.drop 24)
  else bs.map Ev.recv
termination_by bs.length
decreasing_by simp only [List.length_drop]; omega

/-- Correspondence between a machine state and the bytes pending since the
last dispatch: the cursors count them, the byte buffer holds the current
partial group, the frame array holds the decodes of the completed groups. -/
def Inv (d : Nat → Nat → Nat → Nat → Int) (s : MState) (p : List Nat) : Prop :=
  p.length ≤ 23 ∧
  s.bytesConsumed = p.length % 4 ∧
  s.dataRecvConsumed = p.length / 4 ∧
  (∀ i, i < p.length % 4 → s.buffer i = byteAt p (4 * (p.length / 4) + i)) ∧
  (∀ k, k < p.length / 4 → s.dataRecv k = decAt d p k)

lemma byteAt_append_lt {p : List Nat} (q : List Nat) {i : Nat} (h : i < p.length) :
    byteAt (p ++ q) i = byteAt p i := by
  unfold byteAt; rw [List.getD_append _ _ _ _ h]

lemma byteAt_append_len (p : List Nat) (b : Nat) : byteAt (p ++ [b]) p.length = b % 256 := by
  unfold byteAt
  rw [List.getD_append_right _ _ _ _ (le_refl _)]
  simp

lemma decAt_append (d : Nat → Nat → Nat → Nat → Int) {p : List Nat} (q : List Nat) {k : Nat}
    (h : 4 * k + 4 ≤ p.length) : decAt d (p ++ q) k = decAt d p k := by
  unfold decAt
  rw [byteAt_append_lt q (by omega), byteAt_append_lt q (by omega),
    byteAt_append_lt q (by omega), byteAt_append_lt q (by omega)]

lemma step_sim (d : Nat → Nat → Nat → Nat → Int) (es : Bool) {s : MState} {p : List Nat}
    (hI : Inv d s p) (b : Nat) :
    ∃ t, stepM d es s b = some (t, (refStep d es p b).2) ∧ Inv d t (refStep d es p b).1 := by
  obtain ⟨hlen, hbc, hdc, hbuf, hdata⟩ := hI
  have hmod4 : p.length % 4 < 4 := Nat.mod_lt _ (by omega)
  have hq5 : p.length / 4 ≤ 5 := by omega
  have h64 : s.bytesConsumed < 64 := by omega
  have hstore : storeByte s b = some { s with
      buffer := Function.update s.buffer s.bytesConsumed (b % 256),
      bytesConsumed := s.bytesConsumed + 1 } := by
    rw [storeByte, if_pos h64]
  rcases Nat.lt_or_ge (p.length % 4) 3 with hr | hr
  · -- the byte does not complete a 4-byte group: no parse, no dispatch
    have hne : ¬ (p.length + 1 = 24) := by omega
    refine ⟨MState.mk (Function.update s.buffer s.bytesConsumed (b % 256))
      (s.bytesConsumed + 1) s.dataRecv s.dataRecvConsumed, ?_, ?_⟩
    · rw [refStep, if_neg hne]
      rw [stepM, hstore]
      simp only [Option.some_bind]
      rw [maybeParse, if_neg (by simp only [hbc]; omega)]
      simp only [Option.map_some']
      rw [if_neg (by simp only [hdc]; omega)]
    · rw [refStep, if_neg hne]
      simp only
      refine ⟨by simp; omega, by simp [hbc]; omega, by simp [hdc]; omega, ?_, ?_⟩
      · intro i hi
        simp only [List.length_append, List.length_singleton] at hi ⊢
        rw [show (p.length + 1) / 4 = p.length / 4 from by omega]
        rw [show (p.length + 1) % 4 = p.length % 4 + 1 from by omega] at hi
        rcases Nat.lt_or_ge i (p.length % 4) with hil | hil
        · rw [Function.update_noteq (by omega)]
          rw [byteAt_append_lt [b] (by omega)]
          exact hbuf i hil
        · have hieq : i = p.length % 4 := by omega
          have hix : 4 * (p.length / 4) + i = p.length := by omega
          rw [hix]
          rw [show i = s.bytesConsumed from by omega]
          rw [Function.update_same, byteAt_append_len]
      · intro k hk
        simp only [List.length_append, List.length_singleton] at hk ⊢
        rw [show (p.length + 1) / 4 = p.length / 4 from by omega] at hk
        rw [decAt_append d [b] (by omega)]
        exact hdata k hk
  · -- fourth byte of a group: parse fires
    have hr3 : p.length % 4 = 3 := by omega
    have hd6 : s.dataRecvConsumed < 6 := by omega
    have hparse : maybeParse d { s with
        buffer := Function.update s.buffer s.bytesConsumed (b % 256),
        bytesConsumed := s.bytesConsumed + 1 } = some { s with
          buffer := Function.update s.buffer s.bytesConsumed (b % 256),
          bytesConsumed := 0,
          dataRecv := Function.update s.dataRecv s.dataRecvConsumed
            (d (Function.update s.buffer s.bytesConsumed (b % 256) 0)
               (Function.update s.buffer s.bytesConsumed (b % 256) 1)
               (Function.update s.buffer s.bytesConsumed (b % 256) 2)
               (Function.update s.buffer s.bytesConsumed (b % 256) 3)),
          dataRecvConsumed := s.dataRecvConsumed + 1 } := by
      rw [maybeParse, if_pos (by simp only [hbc, hr3]; omega)]
      rw [parseIntStep]
      simp only [hd6, if_pos]
      rfl
    have hvald : d (Function.update s.buffer s.bytesConsumed (b % 256) 0)
        (Function.update s.buffer s.bytesConsumed (b % 256) 1)
        (Function.update s.buffer s.bytesConsumed (b % 256) 2)
        (Function.update s.buffer s.bytesConsumed (b % 256) 3)
        = decAt d (p ++ [b]) (p.length / 4) := by
      have harg : ∀ i, i < 4 →
          Function.update s.buffer s.bytesConsumed (b % 256) i
            = byteAt (p ++ [b]) (4 * (p.length / 4) + i) := by
        intro i hi
        rcases Nat.lt_or_ge i 3 with hil | hil
        · rw [Function.update_noteq (by omega)]
          rw [byteAt_append_lt [b] (by omega)]
          exact hbuf i (by omega)
        · have hieq : i = 3 := by omega
          have hix : 4 * (p.length / 4) + i = p.length := by omega
          rw [hix]
          rw [show i = s.bytesConsumed from by omega]
          rw [Function.update_same, byteAt_append_len]
      have h0 : (0 : Nat) < 4 := by omega
      rw [decAt, show 4 * (p.length / 4) = 4 * (p.length / 4) + 0 from by omega,
        harg 0 h0, harg 1 (by omega), harg 2 (by omega), harg 3 (by omega)]
    rcases Nat.lt_or_ge (p.length / 4) 5 with hq | hq
    · -- a value completes but the frame does not: no dispatch
      have hne : ¬ (p.length + 1 = 24) := by omega
      refine ⟨MState.mk (Function.update s.buffer s.bytesConsumed (b % 256)) 0
          (Function.update s.dataRecv s.dataRecvConsumed
            (d (Function.update s.buffer s.bytesConsumed (b % 256) 0)
               (Function.update s.buffer s.bytesConsumed (b % 256) 1)
               (Function.update s.buffer s.bytesConsumed (b % 256) 2)
               (Function.update s.buffer s.bytesConsumed (b % 256) 3)))
          (s.dataRecvConsumed + 1), ?_, ?_⟩
      · rw [refStep, if_neg hne]
        rw [stepM, hstore]
        simp only [Option.some_bind]
        rw [hparse]
        simp only [Option.map_some']
        rw [if_neg (by simp only [hdc]; omega)]
      · rw [refStep, if_neg hne]
        simp only
        refine ⟨by simp; omega, by simp [hbc]; omega, by simp [hdc]; omega, ?_, ?_⟩
        · intro i hi
          simp only [List.length_append, List.length_singleton] at hi
          omega
        · intro k hk
          simp only [List.length_append, List.length_singleton] at hk ⊢
          rw [show (p.length + 1) / 4 = p.length / 4 + 1 from by omega] at hk
          rcases Nat.lt_or_ge k (p.length / 4) with hkl | hkl
          · rw [Function.update_noteq (by omega)]
            rw [decAt_append d [b] (by omega)]
            exact hdata k hkl
          · have hkeq : k = p.length / 4 := by omega
            rw [show k = s.dataRecvConsumed from by omega]
            rw [Function.update_same, hvald, hdc]
    · -- sixth value: the frame is complete, dispatch fires
      have hq55 : p.length / 4 = 5 := by omega
      have hlen23 : p.length = 23 := by omega
      have heq24 : p.length + 1 = 24 := by omega
      have hval6 : ∀ k, k < 6 →
          Function.update s.dataRecv s.dataRecvConsumed
            (d (Function.update s.buffer s.bytesConsumed (b % 256) 0)
               (Function.update s.buffer s.bytesConsumed (b % 256) 1)
               (Function.update s.buffer s.bytesConsumed (b % 256) 2)
               (Function.update s.buffer s.bytesConsumed (b % 256) 3)) k
            = decAt d (p ++ [b]) k := by
        intro k hk
        rcases Nat.lt_or_ge k 5 with hkl | hkl
        · rw [Function.update_noteq (by omega)]
          rw [decAt_append d [b] (by omega)]
          exact hdata k (by omega)
        · have hkeq : k = 5 := by omega
          rw [show k = s.dataRecvConsumed from by omega]
          rw [Function.update_same, hvald, hdc, hq55]
      refine ⟨MState.mk (Function.update s.buffer s.bytesConsumed (b % 256)) 0
          (Function.update s.dataRecv s.dataRecvConsumed
            (d (Function.update s.buffer s.bytesConsumed (b % 256) 0)
               (Function.update s.buffer s.bytesConsumed (b % 256) 1)
               (Function.update s.buffer s.bytesConsumed (b % 256) 2)
               (Function.update s.buffer s.bytesConsumed (b % 256) 3)))
          0, ?_, ?_⟩
      · rw [refStep, if_pos heq24]
        rw [stepM, hstore]
        simp only [Option.some_bind]
        rw [hparse]
        simp only [Option.map_some']
        rw [if_pos (by simp only [hdc]; omega)]
        have hde : dispatchEvs es { s with
            buffer := Function.update s.buffer s.bytesConsumed (b % 256),
            bytesConsumed := 0,
            dataRecv := Function.update s.dataRecv s.dataRecvConsumed
              (d (Function.update s.buffer s.bytesConsumed (b % 256) 0)
                 (Function.update s.buffer s.bytesConsumed (b % 256) 1)
                 (Function.update s.buffer s.bytesConsumed (b % 256) 2)
                 (Function.update s.buffer s.bytesConsumed (b % 256) 3)),
            dataRecvConsumed := s.dataRecvConsumed + 1 } = chunkEvs d es (p ++ [b]) := by
          cases es <;>
            simp [dispatchEvs, chunkEvs, servoEvs, frameList, frameOfChunk,
              hval6 0 (by omega), hval6 1 (by omega), hval6 2 (by omega),
              hval6 3 (by omega), hval6 4 (by omega), hval6 5 (by omega)]
        rw [hde]
      · rw [refStep, if_pos heq24]
        simp only
        exact ⟨by simp, by simp, by simp, by intro i hi; simp at hi, by intro k hk; simp at hk⟩

lemma runM_nil (d : Nat → Nat → Nat → Nat → Int) (es : Bool) (s : MState) :
    runM d es s [] = some (s, []) := rfl

lemma runM_cons (d : Nat → Nat → Nat → Nat → Int) (es : Bool) (s : MState) (b : Nat)
    (bs : List Nat) : runM d es s (b :: bs) =
      (stepM d es s b).bind fun r => (runM d es r.1 bs).map fun q => (q.1, r.2 ++ q.2) := rfl

lemma refRun_nil (d : Nat → Nat → Nat → Nat → Int) (es : Bool) (p : List Nat) :
    refRun d es p [] = (p, []) := rfl

lemma refRun_cons (d : Nat → Nat → Nat → Nat → Int) (es : Bool) (p : List Nat) (b : Nat)
    (bs : List Nat) : refRun d es p (b :: bs) =
      ((refRun d es (refStep d es p b).1 bs).1,
       (refStep d es p b).2 ++ (refRun d es (refStep d es p b).1 bs).2) := rfl

lemma Inv_init (d : Nat → Nat → Nat → Nat → Int) : Inv d initState [] := by
  refine ⟨by simp, by simp [initState], by simp [initState], ?_, ?_⟩ <;>
    intro i hi <;> simp at hi

lemma run_sim (d : Nat → Nat → Nat → Nat → Int) (es : Bool) (bs : List Nat) :
    ∀ (s : MState) (p : List Nat), Inv d s p →
      ∃ t, runM d es s bs = some (t, (refRun d es p bs).2) ∧ Inv d t (refRun d es p bs).1 := by
  induction bs with
  | nil =>
    intro s p hI
    exact ⟨s, by rw [runM_nil, refRun_nil], by rw [refRun_nil]; exact hI⟩
  | cons b bs ih =>
    intro s p hI
    obtain ⟨t1, hstep, hI1⟩ := step_sim d es hI b
    obtain ⟨t2, hrun, hI2⟩ := ih t1 (refStep d es p b).1 hI1
    refine ⟨t2, ?_, ?_⟩
    · rw [runM_cons, hstep]
      simp only [Option.some_bind]
      rw [hrun]
      simp only [Option.map_some']
      rw [refRun_cons]
    · rw [refRun_cons]
      exact hI2

lemma run_init (d : Nat → Nat → Nat → Nat → Int) (es : Bool) (bs : List Nat) :
    ∃ t, runM d es initState bs = some (t, (refRun d es [] bs).2) ∧
      Inv d t (refRun d es [] bs).1 :=
  run_sim d es bs initState [] (Inv_init d)

lemma refRun_append (d : Nat → Nat → Nat → Nat → Int) (es : Bool) (xs ys : List Nat) :
    ∀ p, refRun d es p (xs ++ ys) =
      ((refRun d es (refRun d es p xs).1 ys).1,
       (refRun d es p xs).2 ++ (refRun d es (refRun d es p xs).1 ys).2) := by
  induction xs with
  | nil => intro p; simp [refRun_nil]
  | cons x xs ih =>
    intro p
    rw [List.cons_append, refRun_cons, ih, refRun_cons]
    simp [List.append_assoc]

lemma refRun_small (d : Nat → Nat → Nat → Nat → Int) (es : Bool) (bs : List Nat) :
    ∀ p, p.length + bs.length ≤ 23 → refRun d es p bs = (p ++ bs, bs.map Ev.recv) := by
  induction bs with
  | nil => intro p h; simp [refRun_nil]
  | cons b bs ih =>
    intro p h
    simp only [List.length_cons] at h
    rw [refRun_cons, refStep, if_neg (by omega)]
    rw [ih (p ++ [b]) (by simp; omega)]
    simp

lemma refRun_chunk (d : Nat → Nat → Nat → Nat → Int) (es : Bool) (bs : List Nat) :
    ∀ p, p.length ≤ 23 → p.length + bs.length = 24 →
      refRun d es p bs = ([], bs.map Ev.recv ++ chunkEvs d es (p ++ bs)) := by
  induction bs with
  | nil => intro p h h24; simp at h24; omega
  | cons b bs ih =>
    intro p h h24
    simp only [List.length_cons] at h24
    rcases Nat.eq_zero_or_pos bs.length with hb0 | hbpos
    · have hbs : bs = [] := List.length_eq_zero.mp hb0
      subst hbs
      have h23 : p.length + 1 = 24 := by omega
      rw [refRun_cons, refStep, if_pos h23]
      simp [refRun_nil]
    · have hne : ¬ (p.length + 1 = 24) := by omega
      rw [refRun_cons, refStep, if_neg hne]
      rw [ih (p ++ [b]) (by simp; omega) (by simp; omega)]
      simp [List.append_assoc]

lemma chunksTrace_eq (d : Nat → Nat → Nat → Nat → Int) (es : Bool) (bs : List Nat) :
    chunksTrace d es bs =
      if 24 ≤ bs.length then
        (bs.take 24).map Ev.recv ++ chunkEvs d es (bs.take 24) ++ chunksTrace d es (bs.drop 24)
      else bs.map Ev.recv := by
  rw [chunksTrace]
  simp

lemma refRun_nil_trace (d : Nat → Nat → Nat → Nat → Int) (es : Bool) :
    ∀ (n : Nat) (bs : List Nat), bs.length ≤ n →
      (refRun d es [] bs).2 = chunksTrace d es bs := by
  intro n
  induction n with
  | zero =>
    intro bs h
    have hbs : bs = [] := List.length_eq_zero.mp (by omega)
    subst hbs
    rw [refRun_nil, chunksTrace_eq]
    simp
  | succ n ih =>
    intro bs h
    rcases Nat.lt_or_ge bs.length 24 with hlt | hge
    · rw [chunksTrace_eq, if_neg (by omega),
        refRun_small d es bs [] (by simp; omega)]
    · rw [chunksTrace_eq, if_pos hge]
      have hsplit : bs = bs.take 24 ++ bs.drop 24 := (List.take_append_drop 24 bs).symm
      conv_lhs => rw [hsplit]
      rw [refRun_append]
      rw [refRun_chunk d es (bs.take 24) [] (by simp) (by simp [List.length_take]; omega)]
      simp only [List.nil_append]
      rw [ih (bs.drop 24) (by simp [List.length_drop]; omega)]

lemma onlyPrints_append (xs ys : List Ev) :
    onlyPrints (xs ++ ys) = onlyPrints xs ++ onlyPrints ys := by
  unfold onlyPrints
  exact List.filterMap_append xs ys _

lemma servoCalls_append (xs ys : List Ev) :
    servoCalls (xs ++ ys) = servoCalls xs ++ servoCalls ys := by
  unfold servoCalls
  exact List.filterMap_append xs ys _

lemma onlyPrints_map_recv (bs : List Nat) : onlyPrints (bs.map Ev.recv) = [] := by
  induction bs with
  | nil => rfl
  | cons b bs ih => simp [onlyPrints] at ih ⊢

lemma servoCalls_map_recv (bs : List Nat) : servoCalls (bs.map Ev.recv) = [] := by
  induction bs with
  | nil => rfl
  | cons b bs ih => simp [servoCalls] at ih ⊢

lemma onlyPrints_chunkEvs (d : Nat → Nat → Nat → Nat → Int) (es : Bool) (p : List Nat) :
    onlyPrints (chunkEvs d es p) = [frameOfChunk d p] := by
  cases es <;> simp [onlyPrints, chunkEvs]

lemma servoCalls_chunkEvs_true (d : Nat → Nat → Nat → Nat → Int) (p : List Nat) :
    servoCalls (chunkEvs d true p) =
      [(0, decAt d p 0), (1, decAt d p 1), (2, decAt d p 2),
       (3, decAt d p 3), (4, decAt d p 4), (5, decAt d p 5)] := by
  simp [servoCalls, chunkEvs]

/-! ## Telemetry rendering -/

lemma join_nil : String.join [] = "" := rfl

lemma join_cons (a : String) (l : List String) :
    String.join (a :: l) = a ++ String.join l := by
  simp [String.join_eq]
  rfl

/-- The serial output of `print_values` (`Arduino.ino` lines 66-73): for each
of the six values in index order, `Serial.print` of the value (decimal text)
then `Serial.print(";")`; after the loop, the `Serial.println` end-of-line. -/
def printValuesOut (s : MState) : String :=
  toString (s.dataRecv 0) ++ ";" ++ toString (s.dataRecv 1) ++ ";" ++
  toString (s.dataRecv 2) ++ ";" ++ toString (s.dataRecv 3) ++ ";" ++
  toString (s.dataRecv 4) ++ ";" ++ toString (s.dataRecv 5) ++ ";" ++ "\n"

/-- The telemetry format in the spec's words (§6): each value rendered as
decimal text, each followed by the character `;`, with a trailing newline
after all N values. -/
def telemetryLine (vs : List Int) : String :=
  String.join (vs.map fun v => toString v ++ ";") ++ "\n"

/-- A state whose byte-buffer write cursor already equals 4 when a byte is
pushed, the situation §4.1 of the spec says must be treated as fatal. -/
def overrunState : MState := ⟨fun _ => 0, 4, fun _ => 0, 0⟩

/-! ## The claims -/

/-- C1: for every 4-byte input with each byte in 0..255, the decoder
(`parse_int` of `part_000`, the motor-control sketch, whose buffer is
`unsigned char`) produces `b0 + (b1<<8) + (b2<<16) + (b3<<24)` interpreted as
a signed 32-bit two's-complement value, each byte unsigned before shifting;
in particular `decode [0xFF,0xFF,0xFF,0xFF] = -1`,
`decode [0x01,0,0,0] = 1` and `decode [0,0,0,0x80] = -2147483648`. -/
theorem claim_C1_decode_little_endian_signed32 :
    (∀ b0 b1 b2 b3 : Nat, b0 < 256 → b1 < 256 → b2 < 256 → b3 < 256 →
      decodeP b0 b1 b2 b3 = specDecode b0 b1 b2 b3) ∧
    decodeP 255 255 255 255 = -1 ∧ decodeP 1 0 0 0 = 1 ∧
    decodeP 0 0 0 128 = -2147483648 := by
  refine ⟨fun b0 b1 b2 b3 h0 h1 h2 h3 => decodeP_eq_specDecode b0 b1 b2 b3 h0 h1 h2 h3,
    by decide, by decide, by decide⟩

/-- C1 witness: the general statement instantiated at the byte group
`FF 01 00 00`. -/
theorem claim_C1_witness : decodeP 255 1 0 0 = specDecode 255 1 0 0 :=
  claim_C1_decode_little_endian_signed32.1 255 1 0 0
    (by decide) (by decide) (by decide) (by decide)

/-- C2 (intended data flow): feeding exactly 24 bytes from the initial state
through `handleSerial` of `part_000` — with the §9 wrong-array defect at
lines 74/79 read as the intended `data_recv` — emits exactly one frame whose
six entries are the decodes of the six 4-byte groups, and exactly six
`writeMicroseconds` calls with matching index/value pairs in order 0..5.
The source as written subscripts the `int` counter `data_recv_consumed`
instead, so the claim fails on the code as written (code bug). -/
theorem claim_C2_intended_frame_and_servo_calls (bs : List Nat) (h : bs.length = 24) :
    ∃ t evs, runM decodeP true initState bs = some (t, evs) ∧
      onlyPrints evs = [frameOfChunk decodeP bs] ∧
      servoCalls evs =
        [(0, decAt decodeP bs 0), (1, decAt decodeP bs 1), (2, decAt decodeP bs 2),
         (3, decAt decodeP bs 3), (4, decAt decodeP bs 4), (5, decAt decodeP bs 5)] := by
  obtain ⟨t, hrun, hI⟩ := run_init decodeP true bs
  refine ⟨t, (refRun decodeP true [] bs).2, hrun, ?_, ?_⟩
  · rw [refRun_chunk decodeP true bs [] (by simp) (by simp; omega)]
    simp only [List.nil_append]
    rw [onlyPrints_append, onlyPrints_map_recv, onlyPrints_chunkEvs]
    rw [List.nil_append]
  · rw [refRun_chunk decodeP true bs [] (by simp) (by simp; omega)]
    simp only [List.nil_append]
    rw [servoCalls_append, servoCalls_map_recv, servoCalls_chunkEvs_true]
    rw [List.nil_append]

/-- C2 witness: the statement at 24 zero bytes. -/
theorem claim_C2_witness :
    ∃ t evs, runM decodeP true initState (List.replicate 24 0) = some (t, evs) ∧
      onlyPrints evs = [frameOfChunk decodeP (List.replicate 24 0)] ∧
      servoCalls evs =
        [(0, decAt decodeP (List.replicate 24 0) 0), (1, decAt decodeP (List.replicate 24 0) 1),
         (2, decAt decodeP (List.replicate 24 0) 2), (3, decAt decodeP (List.replicate 24 0) 3),
         (4, decAt decodeP (List.replicate 24 0) 4), (5, decAt decodeP (List.replicate 24 0) 5)] :=
  claim_C2_intended_frame_and_servo_calls (List.replicate 24 0) (by decide)

/-- C3 counterexample: a push onto a state whose byte cursor is already 4
proceeds (the step returns a successor state); `handleSerial` contains no
assertion or fatal check, contradicting the claim that every push at
cursor ≥ 4 fails loudly. -/
theorem claim_C3_counterexample : (stepM decodeP true overrunState 7).isSome = true := by
  decide

/-- C3 amended: the implementation has no guard at all — a push with byte
cursor in [4, 64) and frame counter < 6 silently stores the byte, decodes
the (stale) first four buffered bytes and resets the cursor to 0; such
states are unreachable, since from the initial state the cursor is at most 3
after every push. -/
theorem claim_C3_amended_no_guard (d : Nat → Nat → Nat → Nat → Int) (es : Bool) :
    (∀ (s : MState) (b : Nat), 4 ≤ s.bytesConsumed → s.bytesConsumed < 64 →
      s.dataRecvConsumed < 6 →
      ∃ t evs, stepM d es s b = some (t, evs) ∧ t.bytesConsumed = 0) ∧
    (∀ bs : List Nat, (runStateD d es bs).bytesConsumed ≤ 3) := by
  constructor
  · intro s b h4 h64 h6
    rw [stepM, storeByte, if_pos h64]
    simp only [Option.some_bind]
    rw [maybeParse, if_pos (show 4 ≤ s.bytesConsumed + 1 by omega)]
    rw [parseIntStep]
    rw [if_pos (show (MState.mk (Function.update s.buffer s.bytesConsumed (b % 256))
      (s.bytesConsumed + 1) s.dataRecv s.dataRecvConsumed).dataRecvConsumed < 6 from h6)]
    simp only [Option.map_some']
    by_cases hdd : 6 ≤ s.dataRecvConsumed + 1
    · rw [if_pos hdd]
      exact ⟨_, _, rfl, rfl⟩
    · rw [if_neg hdd]
      exact ⟨_, _, rfl, rfl⟩
  · intro bs
    obtain ⟨t, hrun, hI⟩ := run_init d es bs
    have hs : runStateD d es bs = t := by simp [runStateD, hrun]
    obtain ⟨hlen, hbc, _, _, _⟩ := hI
    rw [hs, hbc]
    omega

/-- C3 witness: the amended statement at the overrun state. -/
theorem claim_C3_witness :
    ∃ t evs, stepM decodeP true overrunState 7 = some (t, evs) ∧ t.bytesConsumed = 0 :=
  (claim_C3_amended_no_guard decodeP true).1 overrunState 7
    (by decide) (by decide) (by decide)

/-- C4: after every sequence of pushes from the initial state the cursors
satisfy the invariants — byte cursor ≤ 3 (hence ≤ the 64-byte buffer
capacity) and frame cursor ≤ 5 (hence ≤ N = 6); both are `Nat`, so 0 ≤ holds
by type.  The byte cursor is 0 immediately after the push that consumed the
4th byte of a group, and the frame cursor is 0 immediately after the
dispatching push (byte cursor 3 and frame cursor 5 before it).  Stated for
any decoder and with or without the servo stage, covering both sketches. -/
theorem claim_C4_cursor_invariants (d : Nat → Nat → Nat → Nat → Int) (es : Bool)
    (bs : List Nat) (b : Nat) :
    (runStateD d es bs).bytesConsumed ≤ 3 ∧ (runStateD d es bs).bytesConsumed ≤ 64 ∧
    (runStateD d es bs).dataRecvConsumed ≤ 5 ∧ (runStateD d es bs).dataRecvConsumed ≤ 6 ∧
    ((runStateD d es bs).bytesConsumed = 3 →
      (runStateD d es (bs ++ [b])).bytesConsumed = 0) ∧
    ((runStateD d es bs).bytesConsumed = 3 ∧ (runStateD d es bs).dataRecvConsumed = 5 →
      (runStateD d es (bs ++ [b])).dataRecvConsumed = 0) := by
  obtain ⟨t, hrun, hI⟩ := run_init d es bs
  obtain ⟨t2, hrun2, hI2⟩ := run_init d es (bs ++ [b])
  have hs : runStateD d es bs = t := by simp [runStateD, hrun]
  have hs2 : runStateD d es (bs ++ [b]) = t2 := by simp [runStateD, hrun2]
  obtain ⟨hlen, hbc, hdc, _, _⟩ := hI
  obtain ⟨hlen2, hbc2, hdc2, _, _⟩ := hI2
  have hp2 : (refRun d es [] (bs ++ [b])).1 = (refStep d es (refRun d es [] bs).1 b).1 := by
    rw [refRun_append, refRun_cons, refRun_nil]
  rw [hp2] at hbc2 hdc2
  refine ⟨by rw [hs, hbc]; omega, by rw [hs, hbc]; omega,
    by rw [hs, hdc]; omega, by rw [hs, hdc]; omega, ?_, ?_⟩
  · intro h3
    rw [hs] at h3
    have hp3 : (refRun d es [] bs).1.length % 4 = 3 := by omega
    rw [hs2, hbc2, refStep]
    by_cases h24 : (refRun d es [] bs).1.length + 1 = 24
    · rw [if_pos h24]
      simp
    · rw [if_neg h24]
      simp only [List.length_append, List.length_singleton]
      omega
  · rintro ⟨h3, h5⟩
    rw [hs] at h3 h5
    have hl23 : (refRun d es [] bs).1.length = 23 := by omega
    rw [hs2, hdc2, refStep, if_pos (by omega)]
    simp

/-- C4 witness: after three bytes the byte cursor is 3, and the fourth byte
resets it to 0. -/
theorem claim_C4_witness :
    (runStateD decodeP true [0, 0, 0]).bytesConsumed = 3 ∧
    (runStateD decodeP true ([0, 0, 0] ++ [0])).bytesConsumed = 0 :=
  ⟨by decide, (claim_C4_cursor_invariants decodeP true [0, 0, 0] 0).2.2.2.2.1 (by decide)⟩

/-- C5: feeding exactly 23 bytes from the initial state produces zero
emitted frames and zero servo calls — a partially filled frame is never
dispatched. -/
theorem claim_C5_partial_frame_not_dispatched (bs : List Nat) (h : bs.length = 23) :
    ∃ t evs, runM decodeP true initState bs = some (t, evs) ∧
      onlyPrints evs = [] ∧ servoCalls evs = [] := by
  obtain ⟨t, hrun, hI⟩ := run_init decodeP true bs
  refine ⟨t, (refRun decodeP true [] bs).2, hrun, ?_, ?_⟩ <;>
    rw [refRun_small decodeP true bs [] (by simp; omega)]
  · exact onlyPrints_map_recv bs
  · exact servoCalls_map_recv bs

/-- C5 witness: the statement at 23 zero bytes. -/
theorem claim_C5_witness :
    ∃ t evs, runM decodeP true initState (List.replicate 23 0) = some (t, evs) ∧
      onlyPrints evs = [] ∧ servoCalls evs = [] :=
  claim_C5_partial_frame_not_dispatched (List.replicate 23 0) (by decide)

/-- C6: feeding 48 bytes (two full frames back-to-back) through the
`Arduino.ino` variant emits exactly two frames in order; the first is a
function of the first 24 bytes only and the second of the last 24 bytes only
(the frame cursor resets between frames, no value leaks across). -/
theorem claim_C6_two_frames_no_leak (bs cs : List Nat)
    (hb : bs.length = 24) (hc : cs.length = 24) :
    ∃ t evs, runM decodeIno false initState (bs ++ cs) = some (t, evs) ∧
      onlyPrints evs = [frameOfChunk decodeIno bs, frameOfChunk decodeIno cs] := by
  obtain ⟨t, hrun, hI⟩ := run_init decodeIno false (bs ++ cs)
  refine ⟨t, (refRun decodeIno false [] (bs ++ cs)).2, hrun, ?_⟩
  rw [refRun_append]
  rw [refRun_chunk decodeIno false bs [] (by simp) (by simp; omega)]
  simp only [List.nil_append]
  rw [refRun_chunk decodeIno false cs [] (by simp) (by simp; omega)]
  simp only [List.nil_append]
  rw [onlyPrints_append, onlyPrints_append, onlyPrints_append,
    onlyPrints_map_recv, onlyPrints_map_recv, onlyPrints_chunkEvs, onlyPrints_chunkEvs]
  simp

/-- C6 witness: the statement at two concrete 24-byte frames. -/
theorem claim_C6_witness :
    ∃ t evs, runM decodeIno false initState (List.replicate 24 0 ++ List.replicate 24 1)
        = some (t, evs) ∧
      onlyPrints evs = [frameOfChunk decodeIno (List.replicate 24 0),
        frameOfChunk decodeIno (List.replicate 24 1)] :=
  claim_C6_two_frames_no_leak (List.replicate 24 0) (List.replicate 24 1)
    (by decide) (by decide)

/-- C7 counterexample: with the AVR signed plain `char` of `Arduino.ino`'s
buffer, the two `parse_int` variants disagree on the 4-byte input
`FF 00 00 00`: `Arduino.ino` yields -1 (sign-extended first byte), `part_000`
yields 255 — so the two decoders are not extensionally equal. -/
theorem claim_C7_counterexample : decodeIno 255 0 0 0 ≠ decodeP 255 0 0 0 := by
  decide

/-- C7 amended: the two decoders agree on every input whose bytes are all
below 0x80; and under the unsigned-plain-`char` reading of `Arduino.ino`
(the ARM default) they agree on all inputs — the difference is exactly the
sign extension of bytes ≥ 0x80 through the plain-`char` buffer. -/
theorem claim_C7_amended_equivalence :
    (∀ b0 b1 b2 b3 : Nat, b0 < 128 → b1 < 128 → b2 < 128 → b3 < 128 →
      decodeIno b0 b1 b2 b3 = decodeP b0 b1 b2 b3) ∧
    (∀ b0 b1 b2 b3 : Nat, decodeInoU b0 b1 b2 b3 = decodeP b0 b1 b2 b3) :=
  ⟨fun b0 b1 b2 b3 h0 h1 h2 h3 => decodeIno_eq_decodeP_of_lt b0 b1 b2 b3 h0 h1 h2 h3,
   fun _ _ _ _ => rfl⟩

/-- C7 witness: agreement at the all-below-0x80 group `7F 00 00 00`. -/
theorem claim_C7_witness : decodeIno 127 0 0 0 = decodeP 127 0 0 0 :=
  claim_C7_amended_equivalence.1 127 0 0 0 (by decide) (by decide) (by decide) (by decide)

/-- C8: the decode is pure and deterministic — `parse_int` leaves the byte
buffer and byte cursor untouched, the value it stores is a function of the
four buffered bytes only (states agreeing on those four bytes store the same
value), and a second invocation on the same unchanged buffer stores the same
value again. -/
theorem claim_C8_decode_pure_deterministic (d : Nat → Nat → Nat → Nat → Int)
    (s t u : MState) (hs : parseIntStep d s = some t) :
    t.buffer = s.buffer ∧ t.bytesConsumed = s.bytesConsumed ∧
    t.dataRecv s.dataRecvConsumed = d (s.buffer 0) (s.buffer 1) (s.buffer 2) (s.buffer 3) ∧
    (parseIntStep d t = some u →
      u.dataRecv t.dataRecvConsumed = t.dataRecv s.dataRecvConsumed) ∧
    (∀ s2 t2, parseIntStep d s2 = some t2 →
      s2.buffer 0 = s.buffer 0 → s2.buffer 1 = s.buffer 1 → s2.buffer 2 = s.buffer 2 →
      s2.buffer 3 = s.buffer 3 →
      t2.dataRecv s2.dataRecvConsumed = t.dataRecv s.dataRecvConsumed) := by
  rw [parseIntStep] at hs
  by_cases h6 : s.dataRecvConsumed < 6
  · rw [if_pos h6] at hs
    injection hs with hs
    subst hs
    refine ⟨rfl, rfl, Function.update_same _ _ _, ?_, ?_⟩
    · intro hu
      rw [parseIntStep] at hu
      by_cases h7 : s.dataRecvConsumed + 1 < 6
      · rw [if_pos h7] at hu
        injection hu with hu
        subst hu
        simp only
        rw [Function.update_same, Function.update_same]
      · rw [if_neg h7] at hu
        exact absurd hu (by simp)
    · intro s2 t2 h2 e0 e1 e2 e3
      rw [parseIntStep] at h2
      by_cases h26 : s2.dataRecvConsumed < 6
      · rw [if_pos h26] at h2
        injection h2 with h2
        subst h2
        simp only
        rw [Function.update_same, Function.update_same, e0, e1, e2, e3]
      · rw [if_neg h26] at h2
        exact absurd h2 (by simp)
  · rw [if_neg h6] at hs
    exact absurd hs (by simp)

/-- C8 witness: the statement at the initial state. -/
theorem claim_C8_witness :
    (MState.mk (fun _ => 0) 0 (Function.update (fun _ => 0) 0 (decodeP 0 0 0 0)) 1).dataRecv 0
      = decodeP 0 0 0 0 :=
  (claim_C8_decode_pure_deterministic decodeP initState
    (MState.mk (fun _ => 0) 0 (Function.update (fun _ => 0) 0 (decodeP 0 0 0 0)) 1)
    initState rfl).2.2.1

/-- C9 (conforming variant): on frame completion, `print_values` of
`Arduino.ino` renders exactly the six frame values as decimal text, each
immediately followed by `;`, with a single trailing line terminator after
all six, in index order — the spec's telemetry format.  (`print_data_recv`
of `part_000` instead prints `data_recv_consumed[i]`, the counter subscripted
as an array — the §9 defect — so that variant does not render the frame
values: code bug.) -/
theorem claim_C9_telemetry_format_ino (s : MState) :
    printValuesOut s = telemetryLine (frameList s) := by
  rw [printValuesOut, telemetryLine, frameList]
  simp only [List.map_cons, List.map_nil, join_cons, join_nil]
  simp [String.append_assoc]

/-- C10: for every byte sequence fed from the initial state, the event trace
of the `part_000` pipeline (with the §9 wrong-array defect read as intended)
is exactly `chunksTrace`: per 24-byte chunk, the 24 byte-acceptances, then
the telemetry line and all six servo calls — in index order, all with values
decoded from that single chunk — before any byte of the next chunk is
accepted.  In particular the dispatch completes before the next byte enters
the pipeline and no dispatch mixes values of two different frames (no torn
frame). -/
theorem claim_C10_dispatch_before_next_byte (bs : List Nat) :
    ∃ t, runM decodeP true initState bs = some (t, chunksTrace decodeP true bs) := by
  obtain ⟨t, hrun, _⟩ := run_init decodeP true bs
  refine ⟨t, ?_⟩
  rw [hrun, refRun_nil_trace decodeP true bs.length bs (le_refl _)]

end Bottomside

